import Mathlib

/-!
Verification of the clanka-tools diff-analysis core: the diff metrics
parser, structural analyzer, file classifiers, risk scorer
(`shared/spine.ts`), the risk summary builder
(`workers/clanka-discord/commands/registry.ts`), and the heuristic
review engine (`workers/clanka-reviewer/src/index.ts`).

The JavaScript source is embedded shallowly: strings are Lean `String`s
(lists of characters), JS `number` arithmetic in the risk formula is
modelled by `ℚ` with `Math.round` as `⌊q + 1/2⌋`, and each regular
expression used by the source is translated into an executable character
scan with the exact backtracking semantics of the original pattern.
-/

namespace Clanka

/-! ### Character classes (JS `\s`, `\w`, quotes, line terminators) -/

/-- JS whitespace class `\s` (also the set used by `String.prototype.trim`):
space, tab, LF, VT, FF, CR, NBSP, and the Unicode space separators. -/
def isJsWs (c : Char) : Bool :=
  c == ' ' || c == '\t' || c == '\n' || c == '\r' ||
  c.toNat == 11 || c.toNat == 12 || c.toNat == 160 || c.toNat == 5760 ||
  (decide (8192 ≤ c.toNat) && decide (c.toNat ≤ 8202)) ||
  c.toNat == 8232 || c.toNat == 8233 || c.toNat == 8239 ||
  c.toNat == 8287 || c.toNat == 12288 || c.toNat == 65279

/-- JS word-character class `\w` = `[A-Za-z0-9_]`, used for `\b` boundaries. -/
def isWordChar (c : Char) : Bool :=
  (decide (97 ≤ c.toNat) && decide (c.toNat ≤ 122)) ||
  (decide (65 ≤ c.toNat) && decide (c.toNat ≤ 90)) ||
  (decide (48 ≤ c.toNat) && decide (c.toNat ≤ 57)) ||
  c == '_'

/-- A single or double quote, the class `['"]` in the secret patterns. -/
def isQuoteChar (c : Char) : Bool := c.toNat == 39 || c.toNat == 34

def openBraceChar : Char := Char.ofNat 123

def closeBraceChar : Char := Char.ofNat 125

/-- `.` in a JS regex (no `s` flag) matches anything but a line terminator. -/
def termFreeChar (c : Char) : Bool := !(c == '\n') && !(c == '\r')

def termFree (l : List Char) : Bool := l.all termFreeChar

/-! ### List-of-characters scanning primitives -/

def hasPrefixL : List Char → List Char → Bool
  | [], _ => true
  | _ :: _, [] => false
  | p :: ps, c :: cs => p == c && hasPrefixL ps cs

def stripPrefixL : List Char → List Char → Option (List Char)
  | [], l => some l
  | _ :: _, [] => none
  | p :: ps, c :: cs => if p == c then stripPrefixL ps cs else none

/-- Case-insensitive prefix stripping (ASCII folding), for `/.../i` patterns. -/
def stripPrefixCI : List Char → List Char → Option (List Char)
  | [], l => some l
  | _ :: _, [] => none
  | p :: ps, c :: cs => if p.toLower == c.toLower then stripPrefixCI ps cs else none

def hasInfixL (pat : List Char) : List Char → Bool
  | [] => hasPrefixL pat []
  | c :: cs => hasPrefixL pat (c :: cs) || hasInfixL pat cs

/-- Skip the maximal run of JS whitespace; models `\s*` followed by a
non-whitespace literal (backtracking to a shorter run cannot succeed). -/
def dropWsL (l : List Char) : List Char := l.dropWhile isJsWs

/-- `\b` on the left of a token: start of input or a non-word char before. -/
def bdL : Option Char → Bool
  | none => true
  | some c => !isWordChar c

/-- `\b` on the right of a token: end of input or a non-word char after. -/
def bdR : List Char → Bool
  | [] => true
  | c :: _ => !isWordChar c

/-- Unanchored regex `test`: try the position predicate `f` at every
suffix, carrying the previous character for word-boundary checks. -/
def scanWithPrev (f : Option Char → List Char → Bool) : Option Char → List Char → Bool
  | prev, [] => f prev []
  | prev, c :: rest => f prev (c :: rest) || scanWithPrev f (some c) rest

def strTest (f : Option Char → List Char → Bool) (s : String) : Bool :=
  scanWithPrev f none s.data

/-- First match of a position function, scanning left to right: models
`RegExp.exec` retrieving data from the earliest matching position. -/
def firstWithPrev (f : Option Char → List Char → Option α) : Option Char → List Char → Option α
  | prev, [] => f prev []
  | prev, c :: rest =>
    match f prev (c :: rest) with
    | some a => some a
    | none => firstWithPrev f (some c) rest

/-! ### Line splitting: `diffText.split(/\r?\n/)` -/

def splitLinesAux : List Char → List Char → List String
  | acc, [] => [⟨acc.reverse⟩]
  | acc, '\r' :: '\n' :: rest => ⟨acc.reverse⟩ :: splitLinesAux [] rest
  | acc, '\n' :: rest => ⟨acc.reverse⟩ :: splitLinesAux [] rest
  | acc, c :: rest => splitLinesAux (c :: acc) rest

def splitLines (s : String) : List String := splitLinesAux [] s.data

/-! ### Diff metrics parser (`parseDiffMetrics` in `shared/spine.ts`) -/

/-- The literal prefix of `/^diff --git a\/(.+?) b\/(.+)$/`. -/
def dfgPrefix : List Char := ['d','i','f','f',' ','-','-','g','i','t',' ','a','/']

/-- The literal prefix of `/^\+\+\+ b\/(.+)$/`. -/
def pppPrefix : List Char := ['+','+','+',' ','b','/']

/-- Can ` b\/(.+)$` match at this position (at least one char follows)? -/
def splitHereQ : List Char → Option (List Char)
  | a :: b :: c :: d :: rest =>
    if a == ' ' && b == 'b' && c == '/' then some (d :: rest) else none
  | _ => none

/-- The lazy group of `(.+?) b\/(.+)$`: the shortest nonempty prefix
followed by a ` b/` whose remainder can serve as the greedy `(.+)$`
group (nonempty and free of line terminators). -/
def findAB : List Char → List Char → Option (String × String)
  | _, [] => none
  | acc, c :: rest =>
    match splitHereQ (c :: rest) with
    | some tl =>
      if acc.isEmpty then findAB (c :: acc) rest
      else if termFree tl then some (⟨acc.reverse⟩, ⟨tl⟩)
      else findAB (c :: acc) rest
    | none => if termFreeChar c then findAB (c :: acc) rest else none

/-- `line.match(/^diff --git a\/(.+?) b\/(.+)$/)`, giving the two groups. -/
def matchDiffHeaderL (l : List Char) : Option (String × String) :=
  if hasPrefixL dfgPrefix l then findAB [] (l.drop dfgPrefix.length) else none

/-- `line.match(/^\+\+\+ b\/(.+)$/)`, giving the captured path. -/
def matchPlusFileL (l : List Char) : Option String :=
  if hasPrefixL pppPrefix l then
    match l.drop pppPrefix.length with
    | [] => none
    | c :: rest => if termFree (c :: rest) then some ⟨c :: rest⟩ else none
  else none

/-- `Set.add` on an insertion-ordered unique list, the model of a JS `Set`. -/
def setAdd (s : List String) (x : String) : List String :=
  if x ∈ s then s else s ++ [x]

/-- One iteration of the parser loop over a line. -/
def spineStep (st : List String × Nat) (line : String) : List String × Nat :=
  match matchDiffHeaderL line.data with
  | some ab => (setAdd st.1 ab.2, st.2)
  | none =>
    match matchPlusFileL line.data with
    | some p => (setAdd st.1 p, st.2)
    | none =>
      if (hasPrefixL ['+'] line.data && !hasPrefixL ['+','+','+'] line.data)
          || (hasPrefixL ['-'] line.data && !hasPrefixL ['-','-','-'] line.data)
      then (st.1, st.2 + 1)
      else st

structure DiffMetrics where
  modifiedFilesSet : List String
  lines : List String
  changedLines : Nat
deriving DecidableEq, Repr

def parseDiffMetrics (diffText : String) : DiffMetrics :=
  let lines := splitLines diffText
  let st := lines.foldl spineStep ([], 0)
  ⟨st.1, lines, st.2⟩

/-! ### Structural analyzer (`analyzeDiff` in `shared/spine.ts`) -/

def exportChars : List Char := ['e','x','p','o','r','t']

/-- `/^\+\s*export\b/.test(line)`: a leading `+`, then optional
whitespace, then the export token at a word boundary. -/
def exportLineTest (l : String) : Bool :=
  match stripPrefixL ['+'] l.data with
  | some r =>
    (match stripPrefixL exportChars (dropWsL r) with
     | some r2 => bdR r2
     | none => false)
  | none => false

structure AnalyzeResult where
  modifiedFiles : List String
  newExports : Nat
  logicSummary : String
deriving DecidableEq, Repr

def analyzeDiff (diffText : String) : AnalyzeResult :=
  let m := parseDiffMetrics diffText
  let newExports :=
    m.lines.countP (fun l => exportLineTest l && !hasPrefixL ['+','+','+'] l.data)
  let modifiedFiles := m.modifiedFilesSet
  let nFiles := modifiedFiles.length
  let logicSummary :=
    s!"Industrial Minimalism | startup-gloss: rejected | spine-logic: modified-files={nFiles}; new-exports={newExports} | kernel-invariants: explicit-export-delta; diff-header-bounded-file-set; additive-export-count-only"
  ⟨modifiedFiles, newExports, logicSummary⟩

/-! ### File classifiers (`isSrcFile`, `isTestFile`, `isConfigFile`) -/

def isSrcFile (file : String) : Bool :=
  hasPrefixL ['s','r','c','/'] file.data || hasInfixL ['/','s','r','c','/'] file.data

def endsWithL (suf l : List Char) : Bool := hasPrefixL suf.reverse l.reverse

/-- The suffixes matched by `/\.test\.[cm]?[jt]sx?$/` and `/\.spec\.[cm]?[jt]sx?$/`. -/
def testFileSuffixes : List String :=
  [".test.js", ".test.jsx", ".test.ts", ".test.tsx",
   ".test.cjs", ".test.cjsx", ".test.cts", ".test.ctsx",
   ".test.mjs", ".test.mjsx", ".test.mts", ".test.mtsx",
   ".spec.js", ".spec.jsx", ".spec.ts", ".spec.tsx",
   ".spec.cjs", ".spec.cjsx", ".spec.cts", ".spec.ctsx",
   ".spec.mjs", ".spec.mjsx", ".spec.mts", ".spec.mtsx"]

/-- Look for one of `pats` right after a `/` anywhere in the path. -/
def segScan (pats : List (List Char)) : List Char → Bool
  | [] => false
  | c :: rest => (c == '/' && pats.any (fun p => hasPrefixL p rest)) || segScan pats rest

/-- `(^|\/)pat`: one of `pats` at the start of the path or after a slash. -/
def segStartTest (pats : List (List Char)) (l : List Char) : Bool :=
  pats.any (fun p => hasPrefixL p l) || segScan pats l

/-- `(^|\/)(__tests__|test|tests)\/` with the trailing slash included. -/
def testDirPats : List (List Char) :=
  [['_','_','t','e','s','t','s','_','_','/'],
   ['t','e','s','t','/'],
   ['t','e','s','t','s','/']]

def isTestFile (file : String) : Bool :=
  testFileSuffixes.any (fun suf => endsWithL suf.data file.data) ||
  segStartTest testDirPats file.data

/-- `(^|\/)\.github\/workflows\//`. -/
def workflowsPat : List Char :=
  ['.','g','i','t','h','u','b','/','w','o','r','k','f','l','o','w','s','/']

def lockNames : List String := ["package-lock.json", "npm-shrinkwrap.json"]

/-- The 35 filenames of
`(package|tsconfig|jsconfig|vitest\.config|wrangler)\.(json|jsonc|js|cjs|mjs|ts|toml)`. -/
def cfgManifestNames : List String :=
  (["package", "tsconfig", "jsconfig", "vitest.config", "wrangler"].flatMap fun n =>
    ["json", "jsonc", "js", "cjs", "mjs", "ts", "toml"].map fun e => n ++ "." ++ e)

/-- `(^|\/)name$`: the whole path is `name`, or it ends in `/name`. -/
def segEndTest (names : List String) (file : String) : Bool :=
  names.any (fun n => file == n || endsWithL ('/' :: n.data) file.data)

/-- `/\.(ya?ml|toml|ini|cfg|conf)$/`. -/
def cfgExtSuffixes : List String := [".yaml", ".yml", ".toml", ".ini", ".cfg", ".conf"]

def isConfigFile (file : String) : Bool :=
  segStartTest [workflowsPat] file.data ||
  segEndTest lockNames file ||
  segEndTest cfgManifestNames file ||
  cfgExtSuffixes.any (fun suf => endsWithL suf.data file.data)

/-! ### Risk scorer (`riskScore` in `shared/spine.ts`) -/

/-- JS `Math.round` on the exact rational value: round half toward plus
infinity, i.e. `⌊q + 1/2⌋`. -/
def jsRound (q : ℚ) : ℤ := ⌊q + 1/2⌋

/-- `!diffText.trim()`: every character is JS whitespace (or the string
is empty). -/
def jsTrimEmpty (s : String) : Bool := s.data.all isJsWs

/-- The arithmetic of `riskScore` after the counts have been taken,
exactly as the source computes it: round first, then clamp to `[0, 100]`. -/
def riskScoreCore (changedLines filesTouched srcFiles testFiles configFiles : ℕ) : ℤ :=
  let lineComponent : ℚ := min 40 ((changedLines : ℚ) * 0.4)
  let fileComponent : ℚ := min 25 ((filesTouched : ℚ) * 4)
  let testPenalty : ℚ :=
    if srcFiles = 0 then 0 else 20 * (1 - min 1 ((testFiles : ℚ) / (srcFiles : ℚ)))
  let locationComponent : ℚ :=
    if 0 < srcFiles ∧ 0 < configFiles then 15
    else if 0 < srcFiles then 12
    else if 0 < configFiles then 5
    else 2
  max 0 (min 100 (jsRound (lineComponent + fileComponent + testPenalty + locationComponent)))

def riskScore (diffText : String) : ℤ :=
  if jsTrimEmpty diffText then 0
  else
    let m := parseDiffMetrics diffText
    let files := m.modifiedFilesSet
    riskScoreCore m.changedLines files.length
      (files.countP isSrcFile) (files.countP isTestFile) (files.countP isConfigFile)

/-! ### Risk summary (`buildRiskSummary` in `commands/registry.ts`) -/

inductive RiskLevel
  | low
  | medium
  | high
deriving DecidableEq, Repr

structure RiskSummary where
  score : ℤ
  level : RiskLevel
  reasons : List String
deriving DecidableEq, Repr

def buildRiskSummary (score : ℤ) : RiskSummary :=
  if score ≤ 33 then
    ⟨score, .low, ["Smaller change footprint.", "Lower expected regression surface."]⟩
  else if score ≤ 66 then
    ⟨score, .medium, ["Moderate code churn.", "Requires focused regression checks."]⟩
  else
    ⟨score, .high, ["High change volume or complexity.", "Elevated likelihood of cross-file regressions."]⟩

/-! ### Heuristic review engine (`workers/clanka-reviewer/src/index.ts`) -/

inductive Severity
  | critical
  | warning
  | info
deriving DecidableEq, Repr

structure ReviewIssue where
  severity : Severity
  description : String
  suggestion : String
deriving DecidableEq, Repr

structure ReviewResponseBody where
  summary : String
  issues : List ReviewIssue
  score : ℤ
deriving DecidableEq, Repr

/-- `extractAddedLines`: keep lines starting with `+` but not `+++`,
stripped of the leading `+`. -/
def extractAddedLines (diffLines : List String) : List String :=
  diffLines.filterMap (fun l =>
    if hasPrefixL ['+'] l.data && !hasPrefixL ['+','+','+'] l.data
    then some ⟨l.data.drop 1⟩ else none)

def todoChars : List Char := ['t','o','d','o']

def fixmeChars : List Char := ['f','i','x','m','e']

def fixmeTryAt (l : List Char) : Option String :=
  match stripPrefixCI fixmeChars l with
  | some r => if bdR r then some "FIXME" else none
  | none => none

/-- One position of `/\b(TODO|FIXME)\b/i`, yielding the uppercased group. -/
def todoFixmeAt (prev : Option Char) (l : List Char) : Option String :=
  if !bdL prev then none
  else
    match stripPrefixCI todoChars l with
    | some r => if bdR r then some "TODO" else fixmeTryAt l
    | none => fixmeTryAt l

/-- `pattern.exec(line)` for the marker pattern: the first matching
position's group, uppercased. -/
def firstTodoToken (s : String) : Option String := firstWithPrev todoFixmeAt none s.data

def todoIssueAt (lines : List String) (i : ℕ) : Option ReviewIssue :=
  match lines.get? i with
  | none => none
  | some l =>
    if (firstTodoToken l).isSome then
      let tok := (firstTodoToken l).getD "TODO/FIXME"
      let n := i + 1
      some ⟨.info, s!"Found {tok} marker in added code (line {n}).",
        "Resolve the task now or track it in an issue before merging."⟩
    else none

def addTodoFixmeIssues (lines : List String) : List ReviewIssue :=
  (List.range lines.length).filterMap (todoIssueAt lines)

def consoleLogChars : List Char := ['c','o','n','s','o','l','e','.','l','o','g']

/-- `/\bconsole\.log\s*\(/.test(line)`. -/
def consoleLogTest (s : String) : Bool :=
  strTest (fun prev l =>
    bdL prev &&
    (match stripPrefixL consoleLogChars l with
     | some r => (match dropWsL r with | '(' :: _ => true | _ => false)
     | none => false)) s

def consoleIssueAt (lines : List String) (i : ℕ) : Option ReviewIssue :=
  match lines.get? i with
  | none => none
  | some l =>
    if consoleLogTest l then
      let n := i + 1
      some ⟨.warning, s!"Found console.log in added code (line {n}).",
        "Remove debug logging or replace with a structured logger guarded by environment."⟩
    else none

def addConsoleLogIssues (lines : List String) : List ReviewIssue :=
  (List.range lines.length).filterMap (consoleIssueAt lines)

def anyChars : List Char := ['a','n','y']

def unknownChars : List Char := ['u','n','k','n','o','w','n']

/-- `(any|unknown)\b` at this position. -/
def tokThenBdR (l : List Char) : Bool :=
  (match stripPrefixL anyChars l with | some r => bdR r | none => false) ||
  (match stripPrefixL unknownChars l with | some r => bdR r | none => false)

/-- `(any|unknown)\s*>` at this position. -/
def tokThenWsGt (l : List Char) : Bool :=
  (match stripPrefixL anyChars l with
   | some r => (match dropWsL r with | '>' :: _ => true | _ => false)
   | none => false) ||
  (match stripPrefixL unknownChars l with
   | some r => (match dropWsL r with | '>' :: _ => true | _ => false)
   | none => false)

/-- `/:\s*(any|unknown)\b/.test(line)`. -/
def colonAnyTest (s : String) : Bool :=
  strTest (fun _ l => match l with | ':' :: r => tokThenBdR (dropWsL r) | _ => false) s

/-- `/<\s*(any|unknown)\s*>/.test(line)`. -/
def angleAnyTest (s : String) : Bool :=
  strTest (fun _ l => match l with | '<' :: r => tokThenWsGt (dropWsL r) | _ => false) s

/-- `/\bas\s+(any|unknown)\b/.test(line)`. -/
def asAnyTest (s : String) : Bool :=
  strTest (fun prev l =>
    bdL prev &&
    (match stripPrefixL ['a','s'] l with
     | some (w :: r) => isJsWs w && tokThenBdR (dropWsL (w :: r))
     | _ => false)) s

def anyUnknownTest (s : String) : Bool := colonAnyTest s || angleAnyTest s || asAnyTest s

def anyUnknownIssueAt (lines : List String) (i : ℕ) : Option ReviewIssue :=
  match lines.get? i with
  | none => none
  | some l =>
    if anyUnknownTest l then
      let n := i + 1
      some ⟨.warning, s!"Found broad TypeScript type (any/unknown) in added code (line {n}).",
        "Use a specific interface/type or narrow unknown with runtime checks."⟩
    else none

def addAnyUnknownTypeIssues (lines : List String) : List ReviewIssue :=
  (List.range lines.length).filterMap (anyUnknownIssueAt lines)

def secretToks1 : List (List Char) :=
  [['a','p','i','_','k','e','y'], ['t','o','k','e','n'],
   ['p','a','s','s','w','o','r','d'], ['s','e','c','r','e','t']]

def secretToks2 : List (List Char) :=
  [['a','p','i','_','k','e','y'], ['a','p','i','-','k','e','y'], ['a','p','i','k','e','y'],
   ['t','o','k','e','n'], ['p','a','s','s','w','o','r','d'], ['s','e','c','r','e','t']]

def secretToks3 : List (List Char) :=
  [['t','o','k','e','n'], ['p','a','s','s','w','o','r','d'], ['s','e','c','r','e','t']]

/-- `['"][^'"]+['"]` minus its opening quote: a nonempty run of
non-quote characters followed by some quote. -/
def quoteTailTest : List Char → Bool
  | [] => false
  | c :: rest => !isQuoteChar c && rest.any isQuoteChar

/-- `\s*[:=]\s*['"][^'"]+['"]` (with `:` allowed or only `=`). -/
def keyAssignTail (allowColon : Bool) (r : List Char) : Bool :=
  match dropWsL r with
  | c :: r2 =>
    (c == '=' || (allowColon && c == ':')) &&
    (match dropWsL r2 with
     | q :: r3 => isQuoteChar q && quoteTailTest r3
     | [] => false)
  | [] => false

/-- `/\b(API_KEY|TOKEN|PASSWORD|SECRET)\b\s*[:=]\s*['"][^'"]+['"]/i`. -/
def secretPat1 (s : String) : Bool :=
  strTest (fun prev l =>
    bdL prev &&
    secretToks1.any (fun t =>
      match stripPrefixCI t l with
      | some r => bdR r && keyAssignTail true r
      | none => false)) s

/-- `/['"](api[_-]?key|token|password|secret)['"]\s*:\s*['"][^'"]+['"]/i`. -/
def secretPat2 (s : String) : Bool :=
  strTest (fun _ l =>
    match l with
    | q :: r =>
      isQuoteChar q &&
      secretToks2.any (fun t =>
        match stripPrefixCI t r with
        | some (q2 :: r3) =>
          isQuoteChar q2 &&
          (match dropWsL r3 with
           | ':' :: r4 =>
             (match dropWsL r4 with
              | q3 :: r5 => isQuoteChar q3 && quoteTailTest r5
              | [] => false)
           | _ => false)
        | _ => false)
    | [] => false) s

/-- `/\b(token|password|secret)\b\s*=\s*['"][^'"]+['"]/i`. -/
def secretPat3 (s : String) : Bool :=
  strTest (fun prev l =>
    bdL prev &&
    secretToks3.any (fun t =>
      match stripPrefixCI t l with
      | some r => bdR r && keyAssignTail false r
      | none => false)) s

def secretLineTest (s : String) : Bool := secretPat1 s || secretPat2 s || secretPat3 s

def secretIssueAt (lines : List String) (i : ℕ) : Option ReviewIssue :=
  match lines.get? i with
  | none => none
  | some l =>
    if secretLineTest l then
      let n := i + 1
      some ⟨.critical, s!"Potential hard-coded secret detected in added code (line {n}).",
        "Move credentials to secrets management or environment bindings."⟩
    else none

def addSecretExposureIssues (lines : List String) : List ReviewIssue :=
  (List.range lines.length).filterMap (secretIssueAt lines)

def awaitChars : List Char := ['a','w','a','i','t']

/-- `/\bawait\s+[^;]+/.test(line)`. -/
def awaitTest (s : String) : Bool :=
  strTest (fun prev l =>
    bdL prev &&
    (match stripPrefixL awaitChars l with
     | some (w :: c2 :: _) => isJsWs w && !(c2 == ';')
     | _ => false)) s

/-- `/\btry\b/.test(line)`. -/
def tryLineTest (s : String) : Bool :=
  strTest (fun prev l =>
    bdL prev &&
    (match stripPrefixL ['t','r','y'] l with
     | some r => bdR r
     | none => false)) s

/-- `/\bcatch\b/.test(line)`. -/
def catchLineTest (s : String) : Bool :=
  strTest (fun prev l =>
    bdL prev &&
    (match stripPrefixL ['c','a','t','c','h'] l with
     | some r => bdR r
     | none => false)) s

/-- `/^\s*\/\//.test(line)`. -/
def commentTest (s : String) : Bool :=
  match dropWsL s.data with
  | '/' :: '/' :: _ => true
  | _ => false

def countOpenBraces (s : String) : ℕ := s.data.countP (fun c => c == openBraceChar)

def countCloseBraces (s : String) : ℕ := s.data.countP (fun c => c == closeBraceChar)

/-- The running try-depth loop of `computeTryBlockState`, recording the
depth after a `try` increment but before any `catch`/brace decrement. -/
def tryGo (d : ℕ) : List String → List ℕ
  | [] => []
  | l :: rest =>
    let d1 := if tryLineTest l then d + 1 else d
    let d2 :=
      if catchLineTest l then d1 - 1
      else
        let cb := countCloseBraces l
        if 0 < cb ∧ 0 < d1 then d1 - cb else d1
    d1 :: tryGo d2 rest

def computeTryBlockState (lines : List String) : List ℕ := tryGo 0 lines

def awaitIssueAt (lines : List String) (i : ℕ) : Option ReviewIssue :=
  match lines.get? i with
  | none => none
  | some l =>
    if awaitTest l && !commentTest l
        && ((computeTryBlockState lines).getD i 0 == 0)
        && !tryLineTest l && !catchLineTest l then
      let n := i + 1
      some ⟨.warning, s!"Await call appears without explicit error handling (line {n}).",
        "Wrap awaited calls in try/catch or handle rejections explicitly."⟩
    else none

def addMissingAwaitErrorHandlingIssues (lines : List String) : List ReviewIssue :=
  (List.range lines.length).filterMap (awaitIssueAt lines)

def functionChars : List Char := ['f','u','n','c','t','i','o','n']

/-- `/\bfunction\b|=>\s*\{|\)\s*\{/.test(line)`. -/
def fnStartTest (s : String) : Bool :=
  strTest (fun prev l =>
    bdL prev &&
    (match stripPrefixL functionChars l with
     | some r => bdR r
     | none => false)) s ||
  strTest (fun _ l =>
    match l with
    | '=' :: '>' :: r => (match dropWsL r with | c :: _ => c == openBraceChar | [] => false)
    | _ => false) s ||
  strTest (fun _ l =>
    match l with
    | ')' :: r => (match dropWsL r with | c :: _ => c == openBraceChar | [] => false)
    | _ => false) s

/-- The single-pass loop of `addLongFunctionIssues`: an unweighted brace
depth, at most one open function, emit an info issue for spans over 100
added lines. -/
def longFnGo (i braceDepth : ℕ) (cur : Option ℕ) (fnDepth : ℕ) : List String → List ReviewIssue
  | [] => []
  | l :: rest =>
    let ob := countOpenBraces l
    let cb := countCloseBraces l
    let started := cur.isNone && fnStartTest l && !(ob == 0)
    let cur2 := if started then some i else cur
    let fnDepth2 := if started then braceDepth + ob else fnDepth
    let bd2 := braceDepth + ob - cb
    match cur2 with
    | some st =>
      if bd2 < fnDepth2 then
        (if 100 < i - st + 1 then
          let len := i - st + 1
          let n := st + 1
          [⟨.info, s!"Function added with {len} lines (starts at added line {n}).",
            "Split the function into smaller, focused helpers to improve maintainability."⟩]
         else []) ++ longFnGo (i + 1) bd2 none 0 rest
      else longFnGo (i + 1) bd2 cur2 fnDepth2 rest
    | none => longFnGo (i + 1) bd2 none fnDepth2 rest

def addLongFunctionIssues (lines : List String) : List ReviewIssue :=
  longFnGo 0 0 none 0 lines

def severityPenalty : Severity → ℤ
  | .critical => 25
  | .warning => 10
  | .info => 3

def scoreFromIssues (issues : List ReviewIssue) : ℤ :=
  max 0 (100 - issues.foldl (fun s i => s + severityPenalty i.severity) 0)

/-- The `issues.reduce` accumulating `{critical, warning, info}` counts. -/
def severityCountsFold (issues : List ReviewIssue) : ℕ × ℕ × ℕ :=
  issues.foldl (fun acc i =>
    match i.severity with
    | .critical => (acc.1 + 1, acc.2.1, acc.2.2)
    | .warning => (acc.1, acc.2.1 + 1, acc.2.2)
    | .info => (acc.1, acc.2.1, acc.2.2 + 1)) (0, 0, 0)

def buildSummary (issues : List ReviewIssue) (score : ℤ) (hasContext : Bool) : String :=
  if issues.length = 0 then
    if hasContext then s!"No heuristic issues found in diff. Context provided. Score: {score}/100."
    else s!"No heuristic issues found in diff. Score: {score}/100."
  else
    let counts := severityCountsFold issues
    let total := issues.length
    let nc := counts.1
    let nw := counts.2.1
    let ni := counts.2.2
    let contextLabel := if hasContext then " Context considered." else ""
    s!"Found {total} issue(s): {nc} critical, {nw} warning, {ni} info. Score: {score}/100.{contextLabel}"

/-- `Boolean(context && context.trim())`. -/
def hasContextFlag : Option String → Bool
  | none => false
  | some s => !jsTrimEmpty s

def runHeuristicReview (diff : String) (context : Option String) : ReviewResponseBody :=
  let addedLines := extractAddedLines (splitLines diff)
  let issues :=
    addTodoFixmeIssues addedLines ++ addConsoleLogIssues addedLines ++
    addAnyUnknownTypeIssues addedLines ++ addSecretExposureIssues addedLines ++
    addMissingAwaitErrorHandlingIssues addedLines ++ addLongFunctionIssues addedLines
  let score := scoreFromIssues issues
  let summary := buildSummary issues score (hasContextFlag context)
  ⟨summary, issues, score⟩

/-- The detector sequence composed by `runHeuristicReview`, in source order. -/
def detectorList : List (List String → List ReviewIssue) :=
  [addTodoFixmeIssues, addConsoleLogIssues, addAnyUnknownTypeIssues,
   addSecretExposureIssues, addMissingAwaitErrorHandlingIssues, addLongFunctionIssues]

/-- The orchestrator run with an arbitrary ordering of the detectors. -/
def runHeuristicReviewWith (ds : List (List String → List ReviewIssue))
    (diff : String) (context : Option String) : ReviewResponseBody :=
  let addedLines := extractAddedLines (splitLines diff)
  let issues := (ds.map (fun d => d addedLines)).flatten
  let score := scoreFromIssues issues
  let summary := buildSummary issues score (hasContextFlag context)
  ⟨summary, issues, score⟩

/-! ### Spec-side definitions used to state the claims

These follow the wording of the specification (for refinement-style
comparisons against the source-derived definitions above), plus the
concrete inputs used by counterexamples and witnesses. -/

/-- Spec wording for the review penalty: 25 per critical, 10 per
warning, 3 per info. -/
def specIssuePenalty : Severity → ℤ
  | .critical => 25
  | .warning => 10
  | .info => 3

/-- Spec wording for the risk formula: the same four components, but
`round(clamp(sum, 0, 100))` — clamp first, then round. -/
def specRiskFormula (changedLines filesTouched srcFiles testFiles configFiles : ℕ) : ℤ :=
  let lineComponent : ℚ := min 40 ((changedLines : ℚ) * 0.4)
  let fileComponent : ℚ := min 25 ((filesTouched : ℚ) * 4)
  let testPenalty : ℚ :=
    if srcFiles = 0 then 0 else 20 * (1 - min 1 ((testFiles : ℚ) / (srcFiles : ℚ)))
  let locationComponent : ℚ :=
    if 0 < srcFiles ∧ 0 < configFiles then 15
    else if 0 < srcFiles then 12
    else if 0 < configFiles then 5
    else 2
  jsRound (max 0 (min 100 (lineComponent + fileComponent + testPenalty + locationComponent)))

/-- The predicate of the amended C5 claim on a raw (untrimmed) line:
`+`, then optional whitespace, then the export token with a word
boundary, and not a `+++` marker line. -/
def specNewExportLineL (l : List Char) : Bool :=
  (match stripPrefixL ['+'] l with
   | some r =>
     (match stripPrefixL exportChars (dropWsL r) with
      | some r2 => bdR r2
      | none => false)
   | none => false) && !hasPrefixL ['+','+','+'] l

def specNewExportLine (l : String) : Bool := specNewExportLineL l.data

/-- JS `String.prototype.trim` on a character list. -/
def jsTrimData (l : List Char) : List Char :=
  ((l.dropWhile isJsWs).reverse.dropWhile isJsWs).reverse

/-- The predicate of the original C5 claim: the line is trimmed first,
then required to begin with `+`, optional whitespace and the export
token; `+++` marker lines are excluded. -/
def specTrimmedExportLine (l : String) : Bool :=
  (match jsTrimData l.data with
   | '+' :: r =>
     (match stripPrefixL exportChars (dropWsL r) with
      | some r2 => bdR r2
      | none => false)
   | _ => false) && !hasPrefixL ['+','+','+'] l.data

/-- The rename diff of the test suite, parameterised by the two paths. -/
def renameDiffLines (old new : String) : List String :=
  ["diff --git a/" ++ old ++ " b/" ++ new,
   "similarity index 100%",
   "rename from " ++ old,
   "rename to " ++ new,
   "--- a/" ++ old,
   "+++ b/" ++ new,
   "@@ -1,2 +1,2 @@",
   "-export const legacy = 1;",
   "+export const legacy = 2;"]

def renameDiff (old new : String) : String :=
  ("diff --git a/" ++ old ++ " b/" ++ new) ++ "\n" ++
  ("similarity index 100%" ++ "\n" ++
  (("rename from " ++ old) ++ "\n" ++
  (("rename to " ++ new) ++ "\n" ++
  (("--- a/" ++ old) ++ "\n" ++
  (("+++ b/" ++ new) ++ "\n" ++
  ("@@ -1,2 +1,2 @@" ++ "\n" ++
  ("-export const legacy = 1;" ++ "\n" ++
  "+export const legacy = 2;")))))))

/-- The added line of the spec's secret-exposure example. -/
def secretExampleLine : String := "const token = \"abc123\";"

/-- The spec example diff with the hard-coded token line. -/
def secretExampleDiff : String :=
  "diff --git a/src/app.ts b/src/app.ts\n--- a/src/app.ts\n+++ b/src/app.ts\n+const token = \"abc123\";\n+const x = 1;"

/-- The same diff without the token line. -/
def secretExampleDiffWithout : String :=
  "diff --git a/src/app.ts b/src/app.ts\n--- a/src/app.ts\n+++ b/src/app.ts\n+const x = 1;"

/-- Five added secret lines: the review score floors at 0. -/
def secretDiff5 : String :=
  "+const token = \"abc123\";\n+const token = \"abc123\";\n+const token = \"abc123\";\n+const token = \"abc123\";\n+const token = \"abc123\";"

/-- The same diff with one secret line removed: still floored at 0. -/
def secretDiff4 : String :=
  "+const token = \"abc123\";\n+const token = \"abc123\";\n+const token = \"abc123\";\n+const token = \"abc123\";"

/-- A diff whose single added line triggers both the marker-comment and
the debug-statement detectors. -/
def orderCexDiff : String := "+console.log(\"TODO\")"

/-- The detector sequence with the first two detectors exchanged. -/
def swappedDetectorList : List (List String → List ReviewIssue) :=
  [addConsoleLogIssues, addTodoFixmeIssues, addAnyUnknownTypeIssues,
   addSecretExposureIssues, addMissingAwaitErrorHandlingIssues, addLongFunctionIssues]

/-! ### Scoring lemmas -/

theorem foldl_penalty_eq (issues : List ReviewIssue) (init : ℤ) :
    issues.foldl (fun s i => s + severityPenalty i.severity) init
      = init + (issues.map (fun i => severityPenalty i.severity)).sum := by
  induction issues generalizing init with
  | nil => simp
  | cons a t ih => simp [ih, add_assoc]

theorem severityPenalty_eq_spec (s : Severity) : severityPenalty s = specIssuePenalty s := by
  cases s <;> rfl

theorem scoreFromIssues_eq_spec (issues : List ReviewIssue) :
    scoreFromIssues issues
      = max 0 (100 - (issues.map (fun i => specIssuePenalty i.severity)).sum) := by
  simp only [scoreFromIssues, foldl_penalty_eq, zero_add]
  simp [severityPenalty_eq_spec]

theorem three_le_severityPenalty (s : Severity) : 3 ≤ severityPenalty s := by
  cases s <;> simp [severityPenalty]

theorem penalty_sum_nonneg (issues : List ReviewIssue) :
    0 ≤ (issues.map (fun i => severityPenalty i.severity)).sum := by
  apply List.sum_nonneg
  intro x hx
  obtain ⟨i, _, rfl⟩ := List.mem_map.1 hx
  exact le_trans (by norm_num) (three_le_severityPenalty i.severity)

theorem penalty_sum_pos (issues : List ReviewIssue) (h : issues ≠ []) :
    3 ≤ (issues.map (fun i => severityPenalty i.severity)).sum := by
  cases issues with
  | nil => exact absurd rfl h
  | cons a t =>
    simp only [List.map_cons, List.sum_cons]
    have h1 := three_le_severityPenalty a.severity
    have h2 := penalty_sum_nonneg t
    omega

theorem scoreFromIssues_100_iff (issues : List ReviewIssue) :
    (scoreFromIssues issues = 100 ↔ issues = []) ∧
      (issues ≠ [] → scoreFromIssues issues ≤ 97) := by
  have hfold := foldl_penalty_eq issues 0
  constructor
  · constructor
    · intro h
      by_contra hne
      have h3 := penalty_sum_pos issues hne
      simp only [scoreFromIssues, hfold, zero_add] at h
      omega
    · intro h
      subst h
      simp [scoreFromIssues]
  · intro hne
    have h3 := penalty_sum_pos issues hne
    simp only [scoreFromIssues, hfold, zero_add]
    omega

/-! ### Claim theorems: the review scoring contract -/

/-- C2: for every diff and optional context, the heuristic review's
score equals `max(0, 100 − Σ penalty(issue))` over the issues list it
returns, with penalties 25/critical, 10/warning, 3/info. -/
theorem review_score_eq_spec_penalties (d : String) (c : Option String) :
    (runHeuristicReview d c).score
      = max 0 (100 - ((runHeuristicReview d c).issues.map (fun i => specIssuePenalty i.severity)).sum) :=
  scoreFromIssues_eq_spec ((runHeuristicReview d c).issues)

/-- C9: the heuristic review scores 100 exactly when it emits no issues;
with at least one issue the score is at most 97. -/
theorem review_score_100_iff_no_issues (d : String) (c : Option String) :
    ((runHeuristicReview d c).score = 100 ↔ (runHeuristicReview d c).issues = []) ∧
      ((runHeuristicReview d c).issues ≠ [] → (runHeuristicReview d c).score ≤ 97) :=
  scoreFromIssues_100_iff ((runHeuristicReview d c).issues)

/-- Witness for C9 at a concrete diff with one issue. -/
theorem review_score_100_iff_no_issues_witness :
    (runHeuristicReview "+console.log(1)" none).issues ≠ [] ∧
      (runHeuristicReview "+console.log(1)" none).score ≤ 97 :=
  ⟨by decide, (review_score_100_iff_no_issues "+console.log(1)" none).2 (by decide)⟩

/-- C10: the unguarded-await detector emits no issue for an added line
that begins with optional whitespace followed by `//`, regardless of its
content and of the try-block state. -/
theorem await_detector_skips_comment_lines (lines : List String) (i : ℕ) (l : String)
    (hget : lines.get? i = some l) (hc : commentTest l = true) :
    awaitIssueAt lines i = none := by
  unfold awaitIssueAt
  rw [hget]
  simp [hc]

/-- Witness for C10: a commented-out await line produces no issue. -/
theorem await_detector_skips_comment_lines_witness :
    ["  // await foo()"].get? 0 = some "  // await foo()" ∧
      commentTest "  // await foo()" = true ∧
      awaitIssueAt ["  // await foo()"] 0 = none :=
  ⟨rfl, by decide,
    await_detector_skips_comment_lines ["  // await foo()"] 0 "  // await foo()" rfl (by decide)⟩

/-- C4: `buildRiskSummary` maps scores 0–33 to low, 34–66 to medium and
67–100 to high, with exact boundaries at 33/34 and 66/67. -/
theorem buildRiskSummary_levels (s : ℤ) :
    ((0 ≤ s ∧ s ≤ 33) → (buildRiskSummary s).level = RiskLevel.low) ∧
    ((34 ≤ s ∧ s ≤ 66) → (buildRiskSummary s).level = RiskLevel.medium) ∧
    ((67 ≤ s ∧ s ≤ 100) → (buildRiskSummary s).level = RiskLevel.high) ∧
    (buildRiskSummary 33).level = RiskLevel.low ∧
    (buildRiskSummary 34).level = RiskLevel.medium ∧
    (buildRiskSummary 66).level = RiskLevel.medium ∧
    (buildRiskSummary 67).level = RiskLevel.high := by
  refine ⟨?_, ?_, ?_, by decide, by decide, by decide, by decide⟩
  · rintro ⟨_, h2⟩
    simp only [buildRiskSummary]
    rw [if_pos h2]
  · rintro ⟨h1, h2⟩
    simp only [buildRiskSummary]
    rw [if_neg (by omega), if_pos h2]
  · rintro ⟨h1, _⟩
    simp only [buildRiskSummary]
    rw [if_neg (by omega), if_neg (by omega)]

/-- Witness for C4 at the 34 boundary. -/
theorem buildRiskSummary_levels_witness :
    ((34 : ℤ) ≤ 34 ∧ (34 : ℤ) ≤ 66) ∧ (buildRiskSummary 34).level = RiskLevel.medium :=
  ⟨by decide, (buildRiskSummary_levels 34).2.1 ⟨by decide, by decide⟩⟩

/-! ### Claim C7: the hard-coded-token example -/

/-- C7 (counterexample): with four secret lines the review already
scores 0, so a fifth secret line leaves the score unchanged instead of
25 lower — the claimed exact drop fails on this diff pair. -/
theorem secret_score_drop_claim_false :
    (runHeuristicReview secretDiff5 none).score = 0 ∧
    (runHeuristicReview secretDiff4 none).score = 0 ∧
    ¬((runHeuristicReview secretDiff5 none).score
        = (runHeuristicReview secretDiff4 none).score - 25) :=
  ⟨by decide, by decide, by decide⟩

/-- C7 (amended): every added line equal to `const token = "abc123";`
makes the secret-exposure detector emit exactly the one critical issue
for that line; on the spec's example diff the review has exactly one
critical issue and scores exactly 25 lower than the same diff without
the token line. -/
theorem secret_line_one_critical_and_example_drop :
    (∀ (lines : List String) (i : ℕ), lines.get? i = some secretExampleLine →
      secretIssueAt lines i
        = some ⟨Severity.critical,
            s!"Potential hard-coded secret detected in added code (line {i + 1}).",
            "Move credentials to secrets management or environment bindings."⟩) ∧
    (runHeuristicReview secretExampleDiff none).issues.countP
        (fun i => i.severity == Severity.critical) = 1 ∧
    (runHeuristicReview secretExampleDiff none).score + 25
      = (runHeuristicReview secretExampleDiffWithout none).score := by
  refine ⟨?_, by decide, by decide⟩
  intro lines i hget
  unfold secretIssueAt
  rw [hget]
  have hs : secretLineTest secretExampleLine = true := by decide
  simp [hs]

/-- Witness for C7 (amended) at a one-line added-lines list. -/
theorem secret_line_one_critical_witness :
    [secretExampleLine].get? 0 = some secretExampleLine ∧
      secretIssueAt [secretExampleLine] 0
        = some ⟨Severity.critical,
            s!"Potential hard-coded secret detected in added code (line {0 + 1}).",
            "Move credentials to secrets management or environment bindings."⟩ :=
  ⟨rfl, secret_line_one_critical_and_example_drop.1 [secretExampleLine] 0 rfl⟩

/-! ### Claim C8: detector ordering -/

theorem scoreFromIssues_perm {i1 i2 : List ReviewIssue} (h : i1.Perm i2) :
    scoreFromIssues i1 = scoreFromIssues i2 := by
  simp only [scoreFromIssues, foldl_penalty_eq, zero_add]
  rw [(h.map (fun i => severityPenalty i.severity)).sum_eq]

theorem countsFold_aux (issues : List ReviewIssue) : ∀ acc : ℕ × ℕ × ℕ,
    issues.foldl (fun acc i =>
      match i.severity with
      | .critical => (acc.1 + 1, acc.2.1, acc.2.2)
      | .warning => (acc.1, acc.2.1 + 1, acc.2.2)
      | .info => (acc.1, acc.2.1, acc.2.2 + 1)) acc
    = (acc.1 + issues.countP (fun i => i.severity == Severity.critical),
       acc.2.1 + issues.countP (fun i => i.severity == Severity.warning),
       acc.2.2 + issues.countP (fun i => i.severity == Severity.info)) := by
  induction issues with
  | nil => intro acc; simp
  | cons a t ih =>
    intro acc
    rw [List.foldl_cons, ih]
    cases ha : a.severity <;>
      simp [List.countP_cons, ha, Prod.ext_iff] <;> omega

theorem severityCountsFold_eq (issues : List ReviewIssue) :
    severityCountsFold issues
      = (issues.countP (fun i => i.severity == Severity.critical),
         issues.countP (fun i => i.severity == Severity.warning),
         issues.countP (fun i => i.severity == Severity.info)) := by
  have h := countsFold_aux issues (0, 0, 0)
  simpa [severityCountsFold] using h

theorem buildSummary_perm {i1 i2 : List ReviewIssue} (h : i1.Perm i2) (sc : ℤ) (ctx : Bool) :
    buildSummary i1 sc ctx = buildSummary i2 sc ctx := by
  unfold buildSummary
  rw [h.length_eq, severityCountsFold_eq, severityCountsFold_eq,
    h.countP_eq, h.countP_eq, h.countP_eq]

theorem runWith_components (ds : List (List String → List ReviewIssue))
    (d : String) (c : Option String) :
    runHeuristicReviewWith ds d c
      = ⟨buildSummary ((ds.map (fun f => f (extractAddedLines (splitLines d)))).flatten)
            (scoreFromIssues ((ds.map (fun f => f (extractAddedLines (splitLines d)))).flatten))
            (hasContextFlag c),
         (ds.map (fun f => f (extractAddedLines (splitLines d)))).flatten,
         scoreFromIssues ((ds.map (fun f => f (extractAddedLines (splitLines d)))).flatten)⟩ :=
  rfl

theorem runWith_detectorList (d : String) (c : Option String) :
    runHeuristicReviewWith detectorList d c = runHeuristicReview d c := by
  rw [runWith_components]
  simp [runHeuristicReview, detectorList, List.append_assoc]

/-- C8 (counterexample): running the marker-comment and debug-statement
detectors in the opposite order on a line that triggers both yields a
different ordered issues list, so the ReviewResult is not identical. -/
theorem detector_order_claim_false :
    runHeuristicReviewWith swappedDetectorList orderCexDiff none
      ≠ runHeuristicReview orderCexDiff none := by decide

/-- C8 (amended): any permutation of the detector sequence yields the
same score, the same summary, and a permutation of the issues list (the
order of the issues list itself may change). -/
theorem detector_perm_same_score_and_summary
    (ds : List (List String → List ReviewIssue)) (d : String) (c : Option String)
    (h : ds.Perm detectorList) :
    (runHeuristicReviewWith ds d c).score = (runHeuristicReview d c).score ∧
    (runHeuristicReviewWith ds d c).summary = (runHeuristicReview d c).summary ∧
    ((runHeuristicReviewWith ds d c).issues).Perm ((runHeuristicReview d c).issues) := by
  rw [← runWith_detectorList d c, runWith_components, runWith_components]
  have hperm : ((ds.map (fun f => f (extractAddedLines (splitLines d)))).flatten).Perm
      ((detectorList.map (fun f => f (extractAddedLines (splitLines d)))).flatten) :=
    (h.map _).flatten
  have hscore := scoreFromIssues_perm hperm
  exact ⟨hscore, by rw [hscore]; exact buildSummary_perm hperm _ _, hperm⟩

/-- Witness for C8 (amended) at the swapped detector order. -/
theorem detector_perm_same_score_witness :
    swappedDetectorList.Perm detectorList ∧
    (runHeuristicReviewWith swappedDetectorList orderCexDiff none).score
      = (runHeuristicReview orderCexDiff none).score :=
  ⟨List.Perm.swap _ _ _,
   (detector_perm_same_score_and_summary swappedDetectorList orderCexDiff none
      (List.Perm.swap _ _ _)).1⟩

/-! ### Rounding and clamping lemmas for the risk formula -/

theorem jsRound_mono {q r : ℚ} (h : q ≤ r) : jsRound q ≤ jsRound r :=
  Int.floor_le_floor (by linarith)

theorem jsRound_zero : jsRound 0 = 0 := by
  unfold jsRound
  norm_num

theorem jsRound_hundred : jsRound 100 = 100 := by
  unfold jsRound
  norm_num

/-- Rounding commutes with clamping to `[0, 100]`: the source clamps the
rounded value, the spec rounds the clamped value, and both agree. -/
theorem jsRound_clamp (q : ℚ) : jsRound (max 0 (min 100 q)) = max 0 (min 100 (jsRound q)) := by
  rcases le_total q 0 with h | h
  · rw [min_eq_right (le_trans h (by norm_num)), max_eq_left h, jsRound_zero]
    have h3 : jsRound q ≤ 0 := jsRound_zero ▸ jsRound_mono h
    rw [min_eq_right (le_trans h3 (by norm_num)), max_eq_left h3]
  · rcases le_total q 100 with h' | h'
    · rw [min_eq_right h', max_eq_right h]
      have h3 : 0 ≤ jsRound q := jsRound_zero ▸ jsRound_mono h
      have h4 : jsRound q ≤ 100 := jsRound_hundred ▸ jsRound_mono h'
      rw [min_eq_right h4, max_eq_right h3]
    · rw [min_eq_left h', max_eq_right (show (0:ℚ) ≤ 100 by norm_num), jsRound_hundred]
      have h3 : 100 ≤ jsRound q := jsRound_hundred ▸ jsRound_mono h'
      rw [min_eq_left h3, max_eq_right (show (0:ℤ) ≤ 100 by norm_num)]

theorem riskScoreCore_eq_spec (c f s t g : ℕ) :
    riskScoreCore c f s t g = specRiskFormula c f s t g := by
  simp only [riskScoreCore, specRiskFormula]
  exact (jsRound_clamp _).symm

/-! ### Claim C1: the risk-score formula -/

/-- C1: `riskScore` returns 0 exactly on trim-empty input, and otherwise
equals `round(clamp(lineComponent + fileComponent + testPenalty +
locationComponent, 0, 100))` computed from the parsed changed-line
count, the touched-file count, and the three classifier counts. -/
theorem riskScore_matches_spec_formula (d : String) :
    (jsTrimEmpty d = true → riskScore d = 0) ∧
    (jsTrimEmpty d = false →
      riskScore d
        = specRiskFormula (parseDiffMetrics d).changedLines
            (parseDiffMetrics d).modifiedFilesSet.length
            ((parseDiffMetrics d).modifiedFilesSet.countP isSrcFile)
            ((parseDiffMetrics d).modifiedFilesSet.countP isTestFile)
            ((parseDiffMetrics d).modifiedFilesSet.countP isConfigFile)) := by
  constructor
  · intro h
    simp [riskScore, h]
  · intro h
    simp only [riskScore, h, Bool.false_eq_true, if_false]
    exact riskScoreCore_eq_spec _ _ _ _ _

/-- Witness for C1 at a concrete non-empty diff. -/
theorem riskScore_matches_spec_formula_witness :
    jsTrimEmpty "x" = false ∧
    riskScore "x"
      = specRiskFormula (parseDiffMetrics "x").changedLines
          (parseDiffMetrics "x").modifiedFilesSet.length
          ((parseDiffMetrics "x").modifiedFilesSet.countP isSrcFile)
          ((parseDiffMetrics "x").modifiedFilesSet.countP isTestFile)
          ((parseDiffMetrics "x").modifiedFilesSet.countP isConfigFile) :=
  ⟨by decide, (riskScore_matches_spec_formula "x").2 (by decide)⟩

/-! ### Claim C3: monotonicity of the risk formula -/

/-- C3: holding the other formula inputs fixed, the risk score is
monotonically non-decreasing in the changed-line count and in the
touched-file count. -/
theorem riskScore_formula_monotone :
    (∀ c c' f s t g : ℕ, c ≤ c' → riskScoreCore c f s t g ≤ riskScoreCore c' f s t g) ∧
    (∀ c f f' s t g : ℕ, f ≤ f' → riskScoreCore c f s t g ≤ riskScoreCore c f' s t g) := by
  constructor
  · intro c c' f s t g h
    simp only [riskScoreCore]
    refine max_le_max le_rfl (min_le_min le_rfl (jsRound_mono ?_))
    have hc : (c : ℚ) ≤ (c' : ℚ) := by exact_mod_cast h
    have hline : min (40:ℚ) ((c:ℚ) * 0.4) ≤ min 40 ((c':ℚ) * 0.4) :=
      min_le_min le_rfl (mul_le_mul_of_nonneg_right hc (by norm_num))
    linarith [hline]
  · intro c f f' s t g h
    simp only [riskScoreCore]
    refine max_le_max le_rfl (min_le_min le_rfl (jsRound_mono ?_))
    have hf : (f : ℚ) ≤ (f' : ℚ) := by exact_mod_cast h
    have hfile : min (25:ℚ) ((f:ℚ) * 4) ≤ min 25 ((f':ℚ) * 4) :=
      min_le_min le_rfl (mul_le_mul_of_nonneg_right hf (by norm_num))
    linarith [hfile]

/-- Witness for C3 at concrete formula inputs. -/
theorem riskScore_formula_monotone_witness :
    ((1 : ℕ) ≤ 5 ∧ riskScoreCore 1 1 1 0 0 ≤ riskScoreCore 5 1 1 0 0) ∧
    ((1 : ℕ) ≤ 2 ∧ riskScoreCore 4 1 1 0 0 ≤ riskScoreCore 4 2 1 0 0) :=
  ⟨⟨by decide, riskScore_formula_monotone.1 1 5 1 1 0 0 (by decide)⟩,
   ⟨by decide, riskScore_formula_monotone.2 4 1 2 1 0 0 (by decide)⟩⟩

/-! ### Claim C5: the new-export count -/

/-- C5 (counterexample): the line ` +export x` (leading space) is
counted by the claimed after-trimming rule but not by the code, which
anchors its pattern at the raw start of the line. -/
theorem newExports_trimmed_claim_false :
    (analyzeDiff " +export x").newExports = 0 ∧
    (splitLines " +export x").countP specTrimmedExportLine = 1 := by
  exact ⟨by decide, by decide⟩

/-- C5 (amended): `newExports` counts exactly the untrimmed lines of the
split sequence that begin with `+`, optional whitespace and the export
token (excluding `+++` markers), and a removed line never satisfies that
predicate. -/
theorem newExports_counts_raw_plus_export_lines :
    (∀ d : String, (analyzeDiff d).newExports = (splitLines d).countP specNewExportLine) ∧
    (∀ l : String, hasPrefixL ['-'] l.data = true → specNewExportLine l = false) := by
  constructor
  · intro d
    rfl
  · intro l h
    unfold specNewExportLine specNewExportLineL
    cases hd : l.data with
    | nil => rw [hd] at h; simp [hasPrefixL] at h
    | cons c t =>
      rw [hd] at h
      simp only [hasPrefixL, Bool.and_true, beq_iff_eq] at h
      subst h
      simp [stripPrefixL]

/-- Witness for C5 (amended): a removed export line does not count. -/
theorem newExports_counts_raw_plus_export_lines_witness :
    hasPrefixL ['-'] "-export const gone = 0;".data = true ∧
      specNewExportLine "-export const gone = 0;" = false :=
  ⟨by decide,
   newExports_counts_raw_plus_export_lines.2 "-export const gone = 0;" (by decide)⟩

/-! ### Line-splitting lemmas for claim C6 -/

theorem termFree_cons {c : Char} {cs : List Char} (h : termFree (c :: cs) = true) :
    (c == '\n') = false ∧ (c == '\r') = false ∧ termFree cs = true := by
  rw [termFree, List.all_cons, Bool.and_eq_true] at h
  obtain ⟨hc, hcs⟩ := h
  rw [termFreeChar, Bool.and_eq_true] at hc
  obtain ⟨h1, h2⟩ := hc
  exact ⟨by simpa using h1, by simpa using h2, hcs⟩

theorem splitLinesAux_cons_nl (acc rest : List Char) :
    splitLinesAux acc ('\n' :: rest) = ⟨acc.reverse⟩ :: splitLinesAux [] rest := rfl

theorem splitLinesAux_cons_other (acc : List Char) (c : Char) (rest : List Char)
    (h1 : (c == '\n') = false) (h2 : (c == '\r') = false) :
    splitLinesAux acc (c :: rest) = splitLinesAux (c :: acc) rest := by
  rw [splitLinesAux.eq_def]
  split <;> simp_all

theorem splitLinesAux_sep (l1 : List Char) (h : termFree l1 = true) :
    ∀ acc rest, splitLinesAux acc (l1 ++ '\n' :: rest)
      = ⟨acc.reverse ++ l1⟩ :: splitLinesAux [] rest := by
  induction l1 with
  | nil =>
    intro acc rest
    simp only [List.nil_append, splitLinesAux_cons_nl, List.append_nil]
  | cons c cs ih =>
    intro acc rest
    obtain ⟨h1, h2, h3⟩ := termFree_cons h
    rw [List.cons_append, splitLinesAux_cons_other acc c _ h1 h2, ih h3 (c :: acc) rest]
    simp

theorem splitLinesAux_noSep (l1 : List Char) (h : termFree l1 = true) :
    ∀ acc, splitLinesAux acc l1 = [⟨acc.reverse ++ l1⟩] := by
  induction l1 with
  | nil => intro acc; simp [splitLinesAux]
  | cons c cs ih =>
    intro acc
    obtain ⟨h1, h2, h3⟩ := termFree_cons h
    rw [splitLinesAux_cons_other acc c _ h1 h2, ih h3 (c :: acc)]
    simp

theorem splitLines_append_nl (s : String) (hs : termFree s.data = true) (t : String) :
    splitLines (s ++ "\n" ++ t) = s :: splitLines t := by
  unfold splitLines
  rw [String.data_append, String.data_append, List.append_assoc]
  rw [show ("\n" : String).data ++ t.data = '\n' :: t.data from rfl]
  rw [splitLinesAux_sep s.data hs [] t.data]
  simp

theorem splitLines_single (s : String) (hs : termFree s.data = true) :
    splitLines s = [s] := by
  unfold splitLines
  rw [splitLinesAux_noSep s.data hs []]
  simp

/-! ### Header-matcher lemmas for claim C6 -/

theorem hasPrefixL_append_self (p r : List Char) : hasPrefixL p (p ++ r) = true := by
  induction p with
  | nil => rfl
  | cons c cs ih => simp [hasPrefixL, ih]

theorem hasPrefixL_ne_head {p c : Char} (ps cs : List Char) (h : (p == c) = false) :
    hasPrefixL (p :: ps) (c :: cs) = false := by
  simp [hasPrefixL, h]

theorem splitHereQ_self (nc : List Char) (h : nc ≠ []) :
    splitHereQ (' ' :: 'b' :: '/' :: nc) = some nc := by
  cases nc with
  | nil => exact absurd rfl h
  | cons a t => simp [splitHereQ]

theorem splitHereQ_append_none (o : List Char) (ho : o ≠ [])
    (hi : hasInfixL [' ','b','/'] o = false) (nc : List Char) :
    splitHereQ (o ++ ' ' :: 'b' :: '/' :: nc) = none := by
  rcases o with _ | ⟨a, _ | ⟨b, _ | ⟨c, r⟩⟩⟩
  · exact absurd rfl ho
  · simp [splitHereQ]
  · simp [splitHereQ]
  · have hpre : hasPrefixL [' ','b','/'] (a :: b :: c :: r) = false := by
      rw [hasInfixL] at hi
      exact (Bool.or_eq_false_iff.1 hi).1
    have hcond : (a == ' ' && b == 'b' && c == '/') = false := by
      by_contra hcc
      rw [Bool.not_eq_false, Bool.and_eq_true, Bool.and_eq_true] at hcc
      obtain ⟨⟨ha, hb⟩, hc⟩ := hcc
      rw [beq_iff_eq] at ha hb hc
      subst ha; subst hb; subst hc
      simp [hasPrefixL] at hpre
    cases r with
    | nil => simp [splitHereQ, hcond]
    | cons d r2 => simp [splitHereQ, hcond]

theorem findAB_exact (nc : List Char) (hnc : nc ≠ []) (htn : termFree nc = true)
    (o : List Char) : ∀ acc : List Char, (acc ≠ [] ∨ o ≠ []) →
      termFree o = true → hasInfixL [' ','b','/'] o = false →
      findAB acc (o ++ ' ' :: 'b' :: '/' :: nc) = some (⟨acc.reverse ++ o⟩, ⟨nc⟩) := by
  induction o with
  | nil =>
    intro acc hne _ _
    have hacc : acc ≠ [] := by
      rcases hne with h | h
      · exact h
      · exact absurd rfl h
    simp only [List.nil_append, findAB]
    rw [splitHereQ_self nc hnc]
    have : acc.isEmpty = false := by
      cases acc with
      | nil => exact absurd rfl hacc
      | cons x xs => rfl
    simp [this, htn]
  | cons c cs ih =>
    intro acc hne ht hi
    obtain ⟨h1, h2, h3⟩ := termFree_cons ht
    have hi2 : hasPrefixL [' ','b','/'] (c :: cs) = false ∧ hasInfixL [' ','b','/'] cs = false := by
      rw [hasInfixL] at hi
      exact Bool.or_eq_false_iff.1 hi
    rw [List.cons_append]
    simp only [findAB]
    rw [show c :: (cs ++ ' ' :: 'b' :: '/' :: nc) = (c :: cs) ++ ' ' :: 'b' :: '/' :: nc from rfl,
      splitHereQ_append_none (c :: cs) (by simp) hi nc]
    have htf : termFreeChar c = true := by
      rw [termFreeChar, h1, h2]
      rfl
    simp only [htf, if_true]
    rw [ih (c :: acc) (Or.inl (by simp)) h3 hi2.2]
    simp

theorem matchDiffHeaderL_none_of_head {c : Char} (h : ('d' == c) = false) (t : List Char) :
    matchDiffHeaderL (c :: t) = none := by
  simp only [matchDiffHeaderL, dfgPrefix]
  rw [hasPrefixL_ne_head _ _ h]
  rfl

theorem matchPlusFileL_none_of_head {c : Char} (h : ('+' == c) = false) (t : List Char) :
    matchPlusFileL (c :: t) = none := by
  simp only [matchPlusFileL, pppPrefix]
  rw [hasPrefixL_ne_head _ _ h]
  rfl

theorem data_ne_nil {s : String} (h : s ≠ "") : s.data ≠ [] := by
  intro hd
  apply h
  apply String.ext
  rw [hd]

theorem matchDiffHeaderL_header (old new : String) (ho : old ≠ "") (hn : new ≠ "")
    (hto : termFree old.data = true) (htn : termFree new.data = true)
    (hinf : hasInfixL [' ','b','/'] old.data = false) :
    matchDiffHeaderL ("diff --git a/" ++ old ++ " b/" ++ new).data = some (old, new) := by
  have hdata : ("diff --git a/" ++ old ++ " b/" ++ new).data
      = dfgPrefix ++ (old.data ++ ' ' :: 'b' :: '/' :: new.data) := by
    rw [String.data_append, String.data_append, String.data_append]
    rw [show ("diff --git a/" : String).data = dfgPrefix from rfl,
      show (" b/" : String).data = [' ', 'b', '/'] from rfl]
    simp [List.append_assoc]
  rw [hdata]
  simp only [matchDiffHeaderL]
  rw [hasPrefixL_append_self, List.drop_left]
  simp only [if_true]
  rw [findAB_exact new.data (data_ne_nil hn) htn old.data []
    (Or.inr (data_ne_nil ho)) hto hinf]
  simp

/-! ### Per-line parser-step lemmas for claim C6 -/

theorem termFree_append (a b : List Char) :
    termFree (a ++ b) = (termFree a && termFree b) := by
  simp [termFree, List.all_append]

theorem spineStep_skip (st : List String × ℕ) (line : String) (c : Char) (t : List Char)
    (hd : line.data = c :: t)
    (hdNe : ('d' == c) = false) (hpNe : ('+' == c) = false) (hmNe : ('-' == c) = false) :
    spineStep st line = st := by
  simp only [spineStep, hd, matchDiffHeaderL_none_of_head hdNe,
    matchPlusFileL_none_of_head hpNe,
    hasPrefixL_ne_head _ _ hpNe, hasPrefixL_ne_head _ _ hmNe]
  simp

theorem spineStep_minusHeader (st : List String × ℕ) (line : String) (t : List Char)
    (hd : line.data = '-' :: '-' :: '-' :: t) :
    spineStep st line = st := by
  have h1 : hasPrefixL ['+'] ('-' :: '-' :: '-' :: t) = false := by simp [hasPrefixL]
  have h2 : hasPrefixL ['-','-','-'] ('-' :: '-' :: '-' :: t) = true := by simp [hasPrefixL]
  have h3 : hasPrefixL ['-'] ('-' :: '-' :: '-' :: t) = true := by simp [hasPrefixL]
  simp only [spineStep, hd,
    matchDiffHeaderL_none_of_head (show ('d' == '-') = false by decide),
    matchPlusFileL_none_of_head (show ('+' == '-') = false by decide), h1, h2, h3]
  simp

theorem spineStep_gitHeader (st : List String × ℕ) (old new : String)
    (ho : old ≠ "") (hn : new ≠ "")
    (hto : termFree old.data = true) (htn : termFree new.data = true)
    (hinf : hasInfixL [' ','b','/'] old.data = false) :
    spineStep st ("diff --git a/" ++ old ++ " b/" ++ new) = (setAdd st.1 new, st.2) := by
  simp only [spineStep, matchDiffHeaderL_header old new ho hn hto htn hinf]

theorem spineStep_plusFile (st : List String × ℕ) (new : String)
    (hn : new ≠ "") (htn : termFree new.data = true) :
    spineStep st ("+++ b/" ++ new) = (setAdd st.1 new, st.2) := by
  have hdata : ("+++ b/" ++ new).data = pppPrefix ++ new.data := by
    rw [String.data_append]
    rfl
  have hdr : matchDiffHeaderL ("+++ b/" ++ new).data = none := by
    rw [hdata]
    exact matchDiffHeaderL_none_of_head (show ('d' == '+') = false by decide) _
  have hpf : matchPlusFileL ("+++ b/" ++ new).data = some new := by
    rw [hdata]
    simp only [matchPlusFileL]
    rw [hasPrefixL_append_self, List.drop_left]
    simp only [if_true]
    cases hnd : new.data with
    | nil => exact absurd hnd (data_ne_nil hn)
    | cons a t =>
      rw [hnd] at htn
      simp only [htn, if_true]
      rw [← hnd]
  simp only [spineStep, hdr, hpf]

/-- The full parse of the rename diff: the modified-file list is exactly
the destination path. -/
theorem renameDiff_modifiedFiles (old new : String)
    (ho : old ≠ "") (hn : new ≠ "")
    (hto : termFree old.data = true) (htn : termFree new.data = true)
    (hinf : hasInfixL [' ','b','/'] old.data = false) :
    (analyzeDiff (renameDiff old new)).modifiedFiles = [new] := by
  have hl1 : termFree ("diff --git a/" ++ old ++ " b/" ++ new).data = true := by
    rw [String.data_append, String.data_append, String.data_append,
      termFree_append, termFree_append, termFree_append, hto, htn]
    decide
  have hl3 : termFree ("rename from " ++ old).data = true := by
    rw [String.data_append, termFree_append, hto]
    decide
  have hl4 : termFree ("rename to " ++ new).data = true := by
    rw [String.data_append, termFree_append, htn]
    decide
  have hl5 : termFree ("--- a/" ++ old).data = true := by
    rw [String.data_append, termFree_append, hto]
    decide
  have hl6 : termFree ("+++ b/" ++ new).data = true := by
    rw [String.data_append, termFree_append, htn]
    decide
  have hsplit : splitLines (renameDiff old new) = renameDiffLines old new := by
    unfold renameDiff
    rw [splitLines_append_nl _ hl1, splitLines_append_nl _ (by decide),
      splitLines_append_nl _ hl3, splitLines_append_nl _ hl4,
      splitLines_append_nl _ hl5, splitLines_append_nl _ hl6,
      splitLines_append_nl _ (by decide), splitLines_append_nl _ (by decide),
      splitLines_single _ (by decide)]
    rfl
  have h1 := spineStep_gitHeader ([], 0) old new ho hn hto htn hinf
  have h2 : ∀ st : List String × ℕ, spineStep st "similarity index 100%" = st := fun st =>
    spineStep_skip st _ 's' _ rfl (by decide) (by decide) (by decide)
  have h3 : ∀ st : List String × ℕ, spineStep st ("rename from " ++ old) = st := fun st =>
    spineStep_skip st _ 'r' ("ename from ".data ++ old.data)
      (by rw [String.data_append]; rfl) (by decide) (by decide) (by decide)
  have h4 : ∀ st : List String × ℕ, spineStep st ("rename to " ++ new) = st := fun st =>
    spineStep_skip st _ 'r' ("ename to ".data ++ new.data)
      (by rw [String.data_append]; rfl) (by decide) (by decide) (by decide)
  have h5 : ∀ st : List String × ℕ, spineStep st ("--- a/" ++ old) = st := fun st =>
    spineStep_minusHeader st _ (' ' :: 'a' :: '/' :: old.data)
      (by rw [String.data_append]; rfl)
  have h6 := spineStep_plusFile (([new] : List String), (0 : ℕ)) new hn htn
  have h7 : ∀ st : List String × ℕ, spineStep st "@@ -1,2 +1,2 @@" = st := fun st =>
    spineStep_skip st _ '@' _ rfl (by decide) (by decide) (by decide)
  have h8 : ∀ st : List String × ℕ, spineStep st "-export const legacy = 1;" = (st.1, st.2 + 1) := by
    intro st
    have hdr : matchDiffHeaderL "-export const legacy = 1;".data = none := by decide
    have hpf : matchPlusFileL "-export const legacy = 1;".data = none := by decide
    have hc : ((hasPrefixL ['+'] "-export const legacy = 1;".data
        && !hasPrefixL ['+','+','+'] "-export const legacy = 1;".data)
        || (hasPrefixL ['-'] "-export const legacy = 1;".data
        && !hasPrefixL ['-','-','-'] "-export const legacy = 1;".data)) = true := by decide
    simp only [spineStep, hdr, hpf, hc, if_true]
  have h9 : ∀ st : List String × ℕ, spineStep st "+export const legacy = 2;" = (st.1, st.2 + 1) := by
    intro st
    have hdr : matchDiffHeaderL "+export const legacy = 2;".data = none := by decide
    have hpf : matchPlusFileL "+export const legacy = 2;".data = none := by decide
    have hc : ((hasPrefixL ['+'] "+export const legacy = 2;".data
        && !hasPrefixL ['+','+','+'] "+export const legacy = 2;".data)
        || (hasPrefixL ['-'] "+export const legacy = 2;".data
        && !hasPrefixL ['-','-','-'] "+export const legacy = 2;".data)) = true := by decide
    simp only [spineStep, hdr, hpf, hc, if_true]
  have hset1 : setAdd ([] : List String) new = [new] := by simp [setAdd]
  have hset2 : setAdd ([new] : List String) new = [new] := by simp [setAdd]
  show ((splitLines (renameDiff old new)).foldl spineStep ([], 0)).1 = [new]
  rw [hsplit]
  simp only [renameDiffLines, List.foldl_cons, List.foldl_nil,
    h1, hset1, h2, h3, h4, h5, h6, hset2, h7, h8, h9]

/-! ### Claim C6: rename diffs track the destination path -/

/-- C6: for a rename diff (`diff --git a/old b/new` header with
`rename from`/`rename to` lines and a `+++ b/new` marker), the analyzer
reports the destination path exactly once and never the source path.
The path hypotheses say the paths are distinct, nonempty, free of line
terminators, and that the old path does not itself contain ` b/`. -/
theorem rename_diff_tracks_destination (old new : String)
    (hne : old ≠ new) (ho : old ≠ "") (hn : new ≠ "")
    (hto : termFree old.data = true) (htn : termFree new.data = true)
    (hinf : hasInfixL [' ','b','/'] old.data = false) :
    new ∈ (analyzeDiff (renameDiff old new)).modifiedFiles ∧
    old ∉ (analyzeDiff (renameDiff old new)).modifiedFiles ∧
    (analyzeDiff (renameDiff old new)).modifiedFiles.count new = 1 := by
  have hm := renameDiff_modifiedFiles old new ho hn hto htn hinf
  rw [hm]
  refine ⟨by simp, ?_, by simp⟩
  simp [hne]

/-- Witness for C6 at the rename of the test suite. -/
theorem rename_diff_tracks_destination_witness :
    ("src/legacy.ts" ≠ "src/core/legacy.ts" ∧
      termFree ("src/legacy.ts" : String).data = true ∧
      hasInfixL [' ','b','/'] ("src/legacy.ts" : String).data = false) ∧
    "src/core/legacy.ts" ∈ (analyzeDiff (renameDiff "src/legacy.ts" "src/core/legacy.ts")).modifiedFiles ∧
    "src/legacy.ts" ∉ (analyzeDiff (renameDiff "src/legacy.ts" "src/core/legacy.ts")).modifiedFiles :=
  ⟨⟨by decide, by decide, by decide⟩,
   (rename_diff_tracks_destination "src/legacy.ts" "src/core/legacy.ts"
      (by decide) (by decide) (by decide) (by decide) (by decide) (by decide)).1,
   (rename_diff_tracks_destination "src/legacy.ts" "src/core/legacy.ts"
      (by decide) (by decide) (by decide) (by decide) (by decide) (by decide)).2.1⟩

end Clanka
